import Mathlib

/-!
Shallow embedding of the MARF trie blob store of
`src/chainstate/stacks/index/file.rs`.

The blob store keeps serialized trie snapshots in an append-only byte log
(`TrieFile`, with a disk backend `TrieFileDisk` and an in-memory backend
`TrieFileRAM`), while a relational Metadata Index (the `trie_sql` module,
consumed but not owned by this file) records, per snapshot identifier, the
byte offset, byte length, an unconfirmed flag, the block hash, and the
(pre-migration) inline blob bytes.

Bytes are modelled as natural numbers; offsets and lengths (`u64`/`u32` in
the source) are modelled as `Nat` — no arithmetic in this layer can overflow
`u64` for any realizable store, so no modular reduction is applied.
Fallible operations return `Except Error`.
-/

deriving instance DecidableEq for Except

namespace Marf

/-- Error conditions of the trie blob layer, a restriction of
`chainstate::stacks::index::Error` to the constructors this file can produce:
`unexpectedEof` and `permissionDenied` are the two `Error::IOError(..)` cases
reachable here (short read past end of data, and writing through a file
descriptor opened without write permission); `notFoundError` is
`Error::NotFoundError`; `dbError` stands for any other relational-store
failure propagated verbatim (spec section 7c). -/
inductive Error
  | unexpectedEof
  | permissionDenied
  | notFoundError
  | dbError
  deriving DecidableEq

/-- One byte of log content.  Modelled as `Nat`; the `< 256` bound of `u8`
plays no role in any property below. -/
abbrev Byte := Nat

/-- Result of writing `data` into `buf` starting at position `pos`:
the prefix of `buf` before `pos` is kept, a gap past the end of `buf` is
zero-filled (the behavior of both `Cursor<Vec<u8>>` and a POSIX file written
past EOF), `data` is laid down, and any remaining suffix of `buf` is kept. -/
def writeBytesAt (buf : List Byte) (pos : Nat) (data : List Byte) : List Byte :=
  buf.take pos ++ List.replicate (pos - buf.length) 0 ++ data ++ buf.drop (pos + data.length)

/-- A positioned byte stream: models both `Cursor<Vec<u8>>` (the RAM backend's
`fd`) and the byte contents plus file position of `fs::File` (the disk
backend's `fd`). -/
structure Cursor where
  buf : List Byte
  pos : Nat
  deriving DecidableEq

/-- `Write::write_all` on a positioned byte stream: writes every byte at the
current position and advances the position. -/
def Cursor.writeAll (c : Cursor) (data : List Byte) : Cursor :=
  { buf := writeBytesAt c.buf c.pos data, pos := c.pos + data.length }

/-- `Read::read_exact` for `n` bytes: succeeds with exactly `n` bytes from the
current position iff they are available, otherwise fails with the
`UnexpectedEof` I/O error. -/
def Cursor.readExact (c : Cursor) (n : Nat) : Except Error (List Byte × Cursor) :=
  if c.pos + n ≤ c.buf.length then
    .ok ((c.buf.drop c.pos).take n, { c with pos := c.pos + n })
  else
    .error .unexpectedEof

/-- `std::io::SeekFrom`, restricted to the two forms the source uses:
`SeekFrom::Start(n)` and `SeekFrom::End(0)`. -/
inductive SeekFrom
  | Start (n : Nat)
  | End
  deriving DecidableEq

/-- The inline blob column (`marf_data.data`) of one Metadata Index row.
Modelled from the spec: the inline blob bytes are present before migration
and are replaced when the row is migrated to an external (offset, length)
(spec sections 4.4 step 5 and 6: "inline blob bytes (nullable once
migrated)"); reading the inline representation of a migrated row yields no
bytes.  `unreadable` models a relational-store failure when opening the blob
(spec section 7c: such failures are propagated verbatim to the caller). -/
inductive InlineBlob
  | bytes (b : List Byte)
  | cleared
  | unreadable
  deriving DecidableEq

/-- One row of the `marf_data` table of the Metadata Index (spec section 6):
block hash, inline blob bytes, unconfirmed flag, external byte offset
(nullable until migrated) and external byte length.  Block hashes
(`MarfTrieId` values in the source) are opaque here and modelled as `Nat`. -/
structure MarfDataRow where
  block_hash : Nat
  data : InlineBlob
  unconfirmed : Bool
  external_offset : Option Nat
  external_length : Nat
  deriving DecidableEq

/-- The Metadata Index: rows indexed by snapshot identifier (`block_id`),
identifiers assigned densely from 0 in insertion order. -/
abbrev DB := List MarfDataRow

/-- Modelled from the spec: `trie_sql::get_external_blobs_length` (the
`trie_sql` module is not under `src/`) — the Blob Log's total logical length,
"sum of recorded lengths" over rows that carry an external offset
(spec sections 3 and 6). -/
def trie_sql.get_external_blobs_length (db : DB) : Nat :=
  (db.map (fun r => if r.external_offset.isSome then r.external_length else 0)).sum

/-- Modelled from the spec: `trie_sql::get_external_trie_offset_length` (not
under `src/`) — the per-identifier (offset, length) query; a missing
identifier, or one with no recorded external offset, signals the not-found
condition (spec section 4.2: never silently treated as offset 0). -/
def trie_sql.get_external_trie_offset_length (db : DB) (block_id : Nat) :
    Except Error (Nat × Nat) :=
  match db[block_id]? with
  | none => .error .notFoundError
  | some r =>
    match r.external_offset with
    | none => .error .notFoundError
    | some offset => .ok (offset, r.external_length)

/-- Modelled from the spec: `trie_sql::is_unconfirmed_block` (not under
`src/`) — the per-identifier confirmation flag; `Error::NotFoundError` when
the identifier denotes no snapshot (spec section 4.4 step 1). -/
def trie_sql.is_unconfirmed_block (db : DB) (block_id : Nat) : Except Error Bool :=
  match db[block_id]? with
  | none => .error .notFoundError
  | some r => .ok r.unconfirmed

/-- Modelled from the spec: `trie_sql::get_block_hash` (not under `src/`) —
identifier-to-hash resolution (spec section 6). -/
def trie_sql.get_block_hash (db : DB) (block_id : Nat) : Except Error Nat :=
  match db[block_id]? with
  | none => .error .notFoundError
  | some r => .ok r.block_hash

/-- Modelled from the spec: `trie_sql::count_blocks` (not under `src/`) —
the count of known snapshot identifiers (spec section 6); with identifiers
assigned densely from 0, iterating `0 .. count_blocks + 1` covers every
identifier from the smallest to the current maximum inclusive
(spec section 4.4). -/
def trie_sql.count_blocks (db : DB) : Nat := db.length

/-- Replace the row at index `i` (the `UPDATE ... WHERE block_id = ?` shape:
no effect when the identifier matches no row). -/
def trie_sql.modifyRow : DB → Nat → (MarfDataRow → MarfDataRow) → DB
  | [], _, _ => []
  | r :: rest, 0, g => g r :: rest
  | r :: rest, i + 1, g => r :: trie_sql.modifyRow rest i g

/-- The row update performed when an external (offset, length) is recorded
for an existing row: the inline representation is replaced (spec section 4.4
step 5) and the external offset and length are set. -/
def trie_sql.migrateRow (offset length : Nat) (r : MarfDataRow) : MarfDataRow :=
  { r with data := .cleared, external_offset := some offset, external_length := length }

/-- Modelled from the spec: `trie_sql::write_external_trie_blob` (not under
`src/`) — records (offset, length) for a snapshot in the Metadata Index
(spec sections 4.1 and 4.4 step 5).  With `some block_id` it updates the
existing row (the migration path), replacing its inline representation; with
`none` it inserts a fresh row for a newly stored snapshot.  Returns the
snapshot's identifier together with the updated index. -/
def trie_sql.write_external_trie_blob (db : DB) (bhh : Nat) (offset length : Nat)
    (block_id : Option Nat) : Except Error (Nat × DB) :=
  match block_id with
  | some id => .ok (id, trie_sql.modifyRow db id (trie_sql.migrateRow offset length))
  | none =>
    .ok (db.length,
      db ++ [{ block_hash := bhh, data := .cleared, unconfirmed := false,
               external_offset := some offset, external_length := length }])

/-- Modelled from the spec: `trie_sql::open_trie_blob_readonly` (not under
`src/`) — opens the inline blob column of one row for reading.  A missing
identifier is the not-found condition; a migrated row has no inline bytes
left, so reading yields the empty byte string; a relational-store failure on
the blob is propagated verbatim (spec section 7c). -/
def trie_sql.open_trie_blob_readonly (db : DB) (block_id : Nat) :
    Except Error (List Byte) :=
  match db[block_id]? with
  | none => .error .notFoundError
  | some r =>
    match r.data with
    | .bytes b => .ok b
    | .cleared => .ok []
    | .unreadable => .error .dbError

/-- The in-process cache from snapshot identifier to byte offset
(`TrieIdOffsets = HashMap<u32, u64>`), modelled as an association list where
insertion prepends and lookup takes the first match. -/
abbrev TrieIdOffsets := List (Nat × Nat)

/-- `HashMap::get` on the offset cache. -/
def findOffset : TrieIdOffsets → Nat → Option Nat
  | [], _ => none
  | (k, v) :: rest, id => if k = id then some v else findOffset rest id

/-- Handle to the flat file containing trie blobs (`TrieFileDisk`).  The
`writable` field models the access mode of the file descriptor: `new_disk`
opens it with `.write(!readonly)`, and the operating system rejects writes
through a descriptor opened read-only. -/
structure TrieFileDisk where
  fd : Cursor
  writable : Bool
  trie_offsets : TrieIdOffsets
  deriving DecidableEq

/-- Handle to the flat in-memory buffer containing trie blobs
(`TrieFileRAM`).  Note the `readonly` flag is stored but the `Write`
implementation for `TrieFileRAM` in the source never consults it. -/
structure TrieFileRAM where
  fd : Cursor
  readonly : Bool
  trie_offsets : TrieIdOffsets
  deriving DecidableEq

/-- The blob store handle: one of two interchangeable backends. -/
inductive TrieFile
  | RAM (r : TrieFileRAM)
  | Disk (d : TrieFileDisk)
  deriving DecidableEq

/-- `TrieFile::new_ram`: fresh in-memory backend over an empty buffer. -/
def TrieFile.new_ram (readonly : Bool) : TrieFile :=
  .RAM { fd := { buf := [], pos := 0 }, readonly := readonly, trie_offsets := [] }

/-- The inner positioned byte stream of either backend. -/
def TrieFile.fd : TrieFile → Cursor
  | .RAM r => r.fd
  | .Disk d => d.fd

/-- Replace the inner byte stream, keeping backend kind, flags and cache. -/
def TrieFile.withFd : TrieFile → Cursor → TrieFile
  | .RAM r, c => .RAM { r with fd := c }
  | .Disk d, c => .Disk { d with fd := c }

/-- The Blob Log's physical byte contents. -/
def TrieFile.contents (f : TrieFile) : List Byte := f.fd.buf

/-- The current stream position (`Seek::stream_position`). -/
def TrieFile.position (f : TrieFile) : Nat := f.fd.pos

/-- Whether a write through this handle can succeed: the RAM backend's
`Write` implementation always writes (its `readonly` flag is not consulted);
the disk backend's file descriptor accepts writes iff it was opened
writable. -/
def TrieFile.writable : TrieFile → Bool
  | .RAM _ => true
  | .Disk d => d.writable

/-- The offset cache of either backend. -/
def TrieFile.trieOffsets : TrieFile → TrieIdOffsets
  | .RAM r => r.trie_offsets
  | .Disk d => d.trie_offsets

/-- `trie_offsets.insert(block_id, offset)` on either backend. -/
def TrieFile.insertOffset : TrieFile → Nat → Nat → TrieFile
  | .RAM r, id, offset => .RAM { r with trie_offsets := (id, offset) :: r.trie_offsets }
  | .Disk d, id, offset => .Disk { d with trie_offsets := (id, offset) :: d.trie_offsets }

/-- `Seek::seek` for the `TrieFile` enum: repositions the stream and returns
the new position.  Seeking (even past the end of data) does not fail. -/
def TrieFile.seek (f : TrieFile) (s : SeekFrom) : Except Error (Nat × TrieFile) :=
  match s with
  | .Start n => .ok (n, f.withFd { f.fd with pos := n })
  | .End => .ok (f.fd.buf.length, f.withFd { f.fd with pos := f.fd.buf.length })

/-- `Write::write_all` for the `TrieFile` enum.  The RAM arm plumbs through
to `Cursor::write` unconditionally — the source's `impl Write for
TrieFileRAM` does not consult the `readonly` flag.  The disk arm writes
through the file descriptor, which the operating system rejects when the
descriptor was opened without write permission. -/
def TrieFile.write_all (f : TrieFile) (data : List Byte) : Except Error TrieFile :=
  match f with
  | .RAM r => .ok (.RAM { r with fd := r.fd.writeAll data })
  | .Disk d =>
    if d.writable then .ok (.Disk { d with fd := d.fd.writeAll data })
    else .error .permissionDenied

/-- `Write::flush` for the `TrieFile` enum: a durability barrier with no
observable effect on the modelled state. -/
def TrieFile.flush (f : TrieFile) : Except Error TrieFile := .ok f

/-- `fs::File::sync_data`: a durability barrier with no observable effect on
the modelled state. -/
def TrieFile.sync_data (f : TrieFile) : Except Error TrieFile := .ok f

/-- `Read::read_exact` for the `TrieFile` enum. -/
def TrieFile.read_exact (f : TrieFile) (n : Nat) : Except Error (List Byte × TrieFile) :=
  match f.fd.readExact n with
  | .error e => .error e
  | .ok (bytes, c) => .ok (bytes, f.withFd c)

/-- `TrieFile::append_trie_blob`: determine the offset as the Metadata
Index's recorded total logical length, seek to it, write all bytes, flush,
and (for the disk backend, where `sync_data` is invoked on the inner file)
force a durability sync; return the offset at which the write began. -/
def TrieFile.append_trie_blob (db : DB) (f : TrieFile) (buf : List Byte) :
    Except Error (Nat × TrieFile) :=
  let offset := trie_sql.get_external_blobs_length db
  match f.seek (.Start offset) with
  | .error e => .error e
  | .ok (_, f1) =>
    match f1.write_all buf with
    | .error e => .error e
    | .ok f2 =>
      match f2.flush with
      | .error e => .error e
      | .ok f3 =>
        match f3.sync_data with
        | .error e => .error e
        | .ok f4 => .ok (offset, f4)

/-- `TrieFile::store_trie_blob`: append the blob to external storage, and
only after the append has completed record the (offset, length) in the
Metadata Index; return the snapshot identifier. -/
def TrieFile.store_trie_blob (db : DB) (f : TrieFile) (bhh : Nat) (buffer : List Byte)
    (block_id : Option Nat) : Except Error (Nat × DB × TrieFile) :=
  match TrieFile.append_trie_blob db f buffer with
  | .error e => .error e
  | .ok (offset, f1) =>
    match trie_sql.write_external_trie_blob db bhh offset buffer.length block_id with
    | .error e => .error e
    | .ok (id, db1) => .ok (id, db1, f1)

/-- `TrieFile::read_trie_blob_from_db`: read one snapshot's inline blob in
its entirety from the Metadata Index (open the blob column read-only and
`read_to_end`). -/
def TrieFile.read_trie_blob_from_db (db : DB) (block_id : Nat) : Except Error (List Byte) :=
  trie_sql.open_trie_blob_readonly db block_id

/-- `TrieFile::read_trie_blob`: look up the snapshot's (offset, length) in
the Metadata Index, seek to the offset, and read exactly `length` bytes from
the Blob Log. -/
def TrieFile.read_trie_blob (db : DB) (f : TrieFile) (block_id : Nat) :
    Except Error (List Byte × TrieFile) :=
  match trie_sql.get_external_trie_offset_length db block_id with
  | .error e => .error e
  | .ok (offset, length) =>
    match f.seek (.Start offset) with
    | .error e => .error e
    | .ok (_, f1) => f1.read_exact length

/-- The loop body of `TrieFile::export_trie_blobs`, iterated over the list
of snapshot identifiers still to visit.  Each identifier is skipped when
unconfirmed or when it denotes no snapshot; otherwise its full inline blob
is read from the Metadata Index, the block hash is resolved, the blob is
appended at the Blob Log's current physical end-of-stream (seek to
`SeekFrom::End(0)`, take the stream position as the true offset, write all,
flush), and the resulting (offset, length) is recorded for that identifier;
any other error aborts the whole loop. -/
def TrieFile.export_loop (db : DB) (f : TrieFile) : List Nat → Except Error (DB × TrieFile)
  | [] => .ok (db, f)
  | block_id :: rest =>
    match trie_sql.is_unconfirmed_block db block_id with
    | .ok true => TrieFile.export_loop db f rest
    | .error .notFoundError => TrieFile.export_loop db f rest
    | .ok false =>
      match TrieFile.read_trie_blob_from_db db block_id with
      | .error e => .error e
      | .ok trie_blob =>
        match trie_sql.get_block_hash db block_id with
        | .error e => .error e
        | .ok bhh =>
          match f.seek .End with
          | .error e => .error e
          | .ok (_, f1) =>
            let offset := f1.position
            match f1.write_all trie_blob with
            | .error e => .error e
            | .ok f2 =>
              match f2.flush with
              | .error e => .error e
              | .ok f3 =>
                match trie_sql.write_external_trie_blob db bhh offset trie_blob.length
                    (some block_id) with
                | .error e => .error e
                | .ok (_, db1) => TrieFile.export_loop db1 f3 rest
    | .error e => .error e

/-- `TrieFile::export_trie_blobs`: copy the trie blobs out of the Metadata
Index into the Blob Log, visiting the snapshot identifiers
`0 .. count_blocks + 1`. -/
def TrieFile.export_trie_blobs (db : DB) (f : TrieFile) : Except Error (DB × TrieFile) :=
  TrieFile.export_loop db f (List.range (trie_sql.count_blocks db + 1))

/-- `TrieFile::get_trie_offset`: resolve the file offset at which a
snapshot's serialized trie starts — on a cache hit return it immediately; on
a miss query the Metadata Index for (offset, length), insert the offset into
the cache, and return it. -/
def TrieFile.get_trie_offset (db : DB) (f : TrieFile) (block_id : Nat) :
    Except Error (Nat × TrieFile) :=
  match findOffset f.trieOffsets block_id with
  | some offset => .ok (offset, f)
  | none =>
    match trie_sql.get_external_trie_offset_length db block_id with
    | .error e => .error e
    | .ok (offset, _length) => .ok (offset, f.insertOffset block_id offset)

/-- `TRIEHASH_ENCODED_SIZE`: a trie hash is 32 bytes. -/
def TRIEHASH_ENCODED_SIZE : Nat := 32

/-- Modelled from the spec: `bits::read_hash_bytes` (not under `src/`) —
read one fixed-width (32-byte) hash value at the current position
(spec section 4.3). -/
def read_hash_bytes (f : TrieFile) : Except Error (List Byte × TrieFile) :=
  f.read_exact TRIEHASH_ENCODED_SIZE

/-- An in-snapshot pointer (`TriePtr`): a node-type tag `id` and a relative
byte offset `ptr`, valid only in combination with its snapshot's base
offset. -/
structure TriePtr where
  id : Nat
  ptr : Nat
  deriving DecidableEq

/-- `TrieFile::get_node_hash_bytes`: resolve the snapshot's base offset,
seek to `base + ptr.ptr()`, and read the fixed-width node hash. -/
def TrieFile.get_node_hash_bytes (db : DB) (f : TrieFile) (block_id : Nat) (p : TriePtr) :
    Except Error (List Byte × TrieFile) :=
  match TrieFile.get_trie_offset db f block_id with
  | .error e => .error e
  | .ok (offset, f1) =>
    match f1.seek (.Start (offset + p.ptr)) with
    | .error e => .error e
    | .ok (_, f2) => read_hash_bytes f2

/-- Modelled from the spec: `bits::read_nodetype_at_head` (not under
`src/`) — decode one node record at the current position (the record's
width is a function `nodeLen` of the pointer's embedded type tag; node
contents are consumed as opaque byte ranges, spec sections 1 and 4.3), then
optionally read its trailing 32-byte hash; when the hash is not requested an
all-zero placeholder hash is returned. -/
def read_nodetype_at_head (nodeLen : Nat → Nat) (f : TrieFile) (ptr_id : Nat)
    (read_hash : Bool) : Except Error ((List Byte × List Byte) × TrieFile) :=
  match f.read_exact (nodeLen ptr_id) with
  | .error e => .error e
  | .ok (node_bytes, f1) =>
    match read_hash with
    | true =>
      match read_hash_bytes f1 with
      | .error e => .error e
      | .ok (h, f2) => .ok ((node_bytes, h), f2)
    | false =>
      .ok ((node_bytes, List.replicate TRIEHASH_ENCODED_SIZE 0), f1)

/-- `TrieFile::read_node_type`: resolve the snapshot's base offset, seek to
`base + ptr.ptr()`, and decode the node together with its trailing hash. -/
def TrieFile.read_node_type (nodeLen : Nat → Nat) (db : DB) (f : TrieFile)
    (block_id : Nat) (p : TriePtr) :
    Except Error ((List Byte × List Byte) × TrieFile) :=
  match TrieFile.get_trie_offset db f block_id with
  | .error e => .error e
  | .ok (offset, f1) =>
    match f1.seek (.Start (offset + p.ptr)) with
    | .error e => .error e
    | .ok (_, f2) => read_nodetype_at_head nodeLen f2 p.id true

/-- `TrieFile::read_node_type_nohash`: as `read_node_type` but without the
trailing hash; only the node component is returned. -/
def TrieFile.read_node_type_nohash (nodeLen : Nat → Nat) (db : DB) (f : TrieFile)
    (block_id : Nat) (p : TriePtr) : Except Error (List Byte × TrieFile) :=
  match TrieFile.get_trie_offset db f block_id with
  | .error e => .error e
  | .ok (offset, f1) =>
    match f1.seek (.Start (offset + p.ptr)) with
    | .error e => .error e
    | .ok (_, f2) =>
      match read_nodetype_at_head nodeLen f2 p.id false with
      | .error e => .error e
      | .ok (pair, f3) => .ok (pair.1, f3)

/-- Harness for the append/read round-trip property: iterate the body of
`store_trie_blob` (append, then record the returned offset and the length in
the Metadata Index) over a list of (block hash, buffer) pairs, collecting
for each the snapshot identifier and the offset the append returned. -/
def TrieFile.store_list (db : DB) (f : TrieFile) :
    List (Nat × List Byte) → Except Error (DB × TrieFile × List (Nat × Nat))
  | [] => .ok (db, f, [])
  | (bhh, buffer) :: rest =>
    match TrieFile.append_trie_blob db f buffer with
    | .error e => .error e
    | .ok (offset, f1) =>
      match trie_sql.write_external_trie_blob db bhh offset buffer.length none with
      | .error e => .error e
      | .ok (id, db1) =>
        match TrieFile.store_list db1 f1 rest with
        | .error e => .error e
        | .ok (db2, f2, recs) => .ok (db2, f2, (id, offset) :: recs)

/-! ### Basic lemmas about the backend operations -/

theorem TrieFile.fd_withFd (f : TrieFile) (c : Cursor) : (f.withFd c).fd = c := by
  cases f <;> rfl

theorem TrieFile.withFd_withFd (f : TrieFile) (c1 c2 : Cursor) :
    (f.withFd c1).withFd c2 = f.withFd c2 := by
  cases f <;> rfl

theorem TrieFile.contents_withFd (f : TrieFile) (c : Cursor) :
    (f.withFd c).contents = c.buf := by
  cases f <;> rfl

theorem TrieFile.position_withFd (f : TrieFile) (c : Cursor) :
    (f.withFd c).position = c.pos := by
  cases f <;> rfl

theorem TrieFile.writable_withFd (f : TrieFile) (c : Cursor) :
    (f.withFd c).writable = f.writable := by
  cases f <;> rfl

theorem TrieFile.trieOffsets_withFd (f : TrieFile) (c : Cursor) :
    (f.withFd c).trieOffsets = f.trieOffsets := by
  cases f <;> rfl

theorem TrieFile.trieOffsets_insertOffset (f : TrieFile) (id offset : Nat) :
    (f.insertOffset id offset).trieOffsets = (id, offset) :: f.trieOffsets := by
  cases f <;> rfl

theorem TrieFile.fd_insertOffset (f : TrieFile) (id offset : Nat) :
    (f.insertOffset id offset).fd = f.fd := by
  cases f <;> rfl

theorem TrieFile.write_all_of_writable (f : TrieFile) (data : List Byte)
    (h : f.writable = true) :
    f.write_all data = .ok (f.withFd (f.fd.writeAll data)) := by
  cases f with
  | RAM r => rfl
  | Disk d =>
    rcases d with ⟨fd, w, t⟩
    cases w
    · exact absurd h (by simp [TrieFile.writable])
    · rfl

theorem TrieFile.write_all_of_not_writable (f : TrieFile) (data : List Byte)
    (h : f.writable = false) :
    f.write_all data = .error .permissionDenied := by
  cases f with
  | RAM r => exact absurd h (by simp [TrieFile.writable])
  | Disk d =>
    rcases d with ⟨fd, w, t⟩
    cases w
    · rfl
    · exact absurd h (by simp [TrieFile.writable])

theorem TrieFile.write_all_ok (f g : TrieFile) (data : List Byte)
    (h : f.write_all data = .ok g) : g = f.withFd (f.fd.writeAll data) := by
  cases f with
  | RAM r => exact (Except.ok.inj h).symm
  | Disk d =>
    rcases d with ⟨fd, w, t⟩
    cases w
    · exact Except.noConfusion h
    · exact (Except.ok.inj h).symm

theorem TrieFile.read_exact_ok (f g : TrieFile) (n : Nat) (bytes : List Byte)
    (h : f.read_exact n = .ok (bytes, g)) :
    bytes = (f.contents.drop f.position).take n ∧
    g = f.withFd { buf := f.contents, pos := f.position + n } ∧
    f.position + n ≤ f.contents.length := by
  unfold TrieFile.read_exact Cursor.readExact at h
  by_cases hb : f.fd.pos + n ≤ f.fd.buf.length
  · simp only [hb, if_true] at h
    obtain ⟨h1, h2⟩ := Prod.mk.injEq .. ▸ (Except.ok.injEq .. ▸ h)
    refine ⟨h1.symm, ?_, hb⟩
    cases g <;> simp_all [TrieFile.contents, TrieFile.position]
  · simp [hb] at h

theorem TrieFile.read_exact_err (f : TrieFile) (n : Nat)
    (h : f.contents.length < f.position + n) :
    f.read_exact n = .error .unexpectedEof := by
  unfold TrieFile.read_exact Cursor.readExact
  have : ¬ (f.fd.pos + n ≤ f.fd.buf.length) := by
    simpa [TrieFile.contents, TrieFile.position] using Nat.not_le_of_lt h
  simp [this]

theorem writeBytesAt_length_self (l d : List Byte) :
    writeBytesAt l l.length d = l ++ d := by
  simp [writeBytesAt, List.drop_eq_nil_of_le (by omega : l.length ≤ l.length + d.length)]

theorem TrieFile.get_trie_offset_ok_fd (db : DB) (f f1 : TrieFile) (id offset : Nat)
    (h : TrieFile.get_trie_offset db f id = .ok (offset, f1)) :
    f1.fd = f.fd ∧ f1.writable = f.writable := by
  unfold TrieFile.get_trie_offset at h
  cases hc : findOffset f.trieOffsets id with
  | some o => simp only [hc] at h; obtain ⟨-, h2⟩ := Prod.mk.injEq .. ▸ (Except.ok.injEq .. ▸ h); subst h2; exact ⟨rfl, rfl⟩
  | none =>
    simp only [hc] at h
    cases hq : trie_sql.get_external_trie_offset_length db id with
    | error e => simp [hq] at h
    | ok ol =>
      simp only [hq] at h
      obtain ⟨-, h2⟩ := Prod.mk.injEq .. ▸ (Except.ok.injEq .. ▸ h)
      subst h2
      constructor
      · exact TrieFile.fd_insertOffset f id ol.1
      · cases f <;> rfl

/-! ### Claim C1 -/

/-- Claim C1: every successful append determines its write offset as the
Metadata Index's recorded total logical length (`get_external_blobs_length`),
for every file state — hence never from the physical size of the backing
file or buffer — and returns that offset as the position at which the write
began: the resulting contents are the old contents with the buffer written
at exactly that offset. -/
theorem append_determines_offset_from_index (db : DB) (f : TrieFile) (buf : List Byte)
    (offset : Nat) (f2 : TrieFile)
    (h : TrieFile.append_trie_blob db f buf = .ok (offset, f2)) :
    offset = trie_sql.get_external_blobs_length db ∧
    f2.contents = writeBytesAt f.contents (trie_sql.get_external_blobs_length db) buf := by
  unfold TrieFile.append_trie_blob at h
  simp only [TrieFile.seek] at h
  set L := trie_sql.get_external_blobs_length db with hL
  cases hw : (f.withFd { f.fd with pos := L }).write_all buf with
  | error e => rw [hw] at h; exact absurd h (by simp)
  | ok g =>
    rw [hw] at h
    simp only [TrieFile.flush, TrieFile.sync_data] at h
    obtain ⟨h1, h2⟩ := Prod.mk.injEq .. ▸ (Except.ok.injEq .. ▸ h)
    have hg := TrieFile.write_all_ok _ _ _ hw
    subst h2
    refine ⟨h1.symm, ?_⟩
    rw [hg, TrieFile.withFd_withFd, TrieFile.contents_withFd]
    simp [Cursor.writeAll, TrieFile.fd_withFd, TrieFile.contents]

def c1w_db : DB :=
  [{ block_hash := 9, data := .cleared, unconfirmed := false,
     external_offset := some 0, external_length := 5 }]

def c1w_f : TrieFile :=
  .RAM { fd := { buf := [1, 2, 3], pos := 0 }, readonly := false, trie_offsets := [] }

def c1w_f2 : TrieFile :=
  .RAM { fd := { buf := [1, 2, 3, 0, 0, 7], pos := 6 }, readonly := false, trie_offsets := [] }

/-- Witness for C1 at a concrete input: the index records total length 5
while the physical buffer holds only 3 bytes; the append goes at offset 5
(zero-filling the gap), not at the physical size 3. -/
theorem append_determines_offset_from_index_witness :
    (5 : Nat) = trie_sql.get_external_blobs_length c1w_db ∧
    c1w_f2.contents = writeBytesAt c1w_f.contents (trie_sql.get_external_blobs_length c1w_db) [7] :=
  append_determines_offset_from_index c1w_db c1w_f [7] 5 c1w_f2 (by decide)

/-! ### Claim C9 -/

/-- Claim C9: storing a trie blob is two separate steps in a fixed order —
on success the store decomposes as the append (write, flush, disk sync)
producing the final file state, followed by committing the (offset, length)
record to the original Metadata Index; and any I/O error during the append
aborts the operation with that error surfaced, so no record is committed to
the Metadata Index (the store returns no updated index). -/
theorem store_trie_blob_two_steps :
    (∀ (db : DB) (f : TrieFile) (bhh : Nat) (buffer : List Byte) (bid : Option Nat)
       (id : Nat) (db2 : DB) (f2 : TrieFile),
       TrieFile.store_trie_blob db f bhh buffer bid = .ok (id, db2, f2) →
       ∃ offset, TrieFile.append_trie_blob db f buffer = .ok (offset, f2) ∧
         trie_sql.write_external_trie_blob db bhh offset buffer.length bid = .ok (id, db2)) ∧
    (∀ (db : DB) (f : TrieFile) (bhh : Nat) (buffer : List Byte) (bid : Option Nat)
       (e : Error),
       TrieFile.append_trie_blob db f buffer = .error e →
       TrieFile.store_trie_blob db f bhh buffer bid = .error e) := by
  constructor
  · intro db f bhh buffer bid id db2 f2 h
    unfold TrieFile.store_trie_blob at h
    cases ha : TrieFile.append_trie_blob db f buffer with
    | error e => rw [ha] at h; exact absurd h (by simp)
    | ok of =>
      obtain ⟨offset, f1⟩ := of
      simp only [ha] at h
      cases hx : trie_sql.write_external_trie_blob db bhh offset buffer.length bid with
      | error e => simp only [hx] at h; exact absurd h (by simp)
      | ok iddb =>
        obtain ⟨id1, db1⟩ := iddb
        simp only [hx] at h
        simp only [Except.ok.injEq, Prod.mk.injEq] at h
        obtain ⟨h1, h2, h3⟩ := h
        subst h1; subst h2; subst h3
        exact ⟨offset, rfl, hx⟩
  · intro db f bhh buffer bid e h
    unfold TrieFile.store_trie_blob
    rw [h]

def c9_f2 : TrieFile :=
  .RAM { fd := { buf := [4], pos := 1 }, readonly := false, trie_offsets := [] }

def c9_db2 : DB :=
  [{ block_hash := 2, data := .cleared, unconfirmed := false,
     external_offset := some 0, external_length := 1 }]

/-- Witness for C9 at concrete inputs: a successful store decomposes into
its append followed by the index record, and a store over a non-writable
file descriptor surfaces the append's I/O error with no record committed. -/
theorem store_trie_blob_two_steps_witness :
    (∃ offset, TrieFile.append_trie_blob [] (TrieFile.new_ram false) [4] =
         .ok (offset, c9_f2) ∧
       trie_sql.write_external_trie_blob [] 2 offset ([4] : List Byte).length none =
         .ok (0, c9_db2)) ∧
    TrieFile.store_trie_blob []
      (.Disk { fd := { buf := [], pos := 0 }, writable := false, trie_offsets := [] })
      2 [4] none = .error .permissionDenied :=
  ⟨store_trie_blob_two_steps.1 [] (TrieFile.new_ram false) 2 [4] none 0 c9_db2 c9_f2
     (by decide),
   store_trie_blob_two_steps.2 []
     (.Disk { fd := { buf := [], pos := 0 }, writable := false, trie_offsets := [] })
     2 [4] none .permissionDenied (by decide)⟩

/-! ### Lemmas about row updates in the Metadata Index -/

theorem modifyRow_getElem_self (db : DB) (id : Nat) (g : MarfDataRow → MarfDataRow) :
    (trie_sql.modifyRow db id g)[id]? = (db[id]?).map g := by
  induction db generalizing id with
  | nil => simp [trie_sql.modifyRow]
  | cons r rest ih =>
    cases id with
    | zero => simp [trie_sql.modifyRow]
    | succ i => simpa [trie_sql.modifyRow] using ih i

theorem modifyRow_getElem_other (db : DB) (id j : Nat) (g : MarfDataRow → MarfDataRow)
    (h : id ≠ j) : (trie_sql.modifyRow db id g)[j]? = db[j]? := by
  induction db generalizing id j with
  | nil => simp [trie_sql.modifyRow]
  | cons r rest ih =>
    cases id with
    | zero =>
      cases j with
      | zero => exact absurd rfl h
      | succ i => simp [trie_sql.modifyRow]
    | succ i =>
      cases j with
      | zero => simp [trie_sql.modifyRow]
      | succ k => simpa [trie_sql.modifyRow] using ih i k (fun hik => h (by rw [hik]))

theorem mem_modifyRow (db : DB) (id : Nat) (g : MarfDataRow → MarfDataRow)
    (r1 : MarfDataRow) (h : r1 ∈ trie_sql.modifyRow db id g) :
    r1 ∈ db ∨ ∃ r0, r0 ∈ db ∧ r1 = g r0 := by
  induction db generalizing id with
  | nil => simp [trie_sql.modifyRow] at h
  | cons r rest ih =>
    cases id with
    | zero =>
      rcases List.mem_cons.mp h with heq | hin
      · exact Or.inr ⟨r, List.mem_cons_self .., heq⟩
      · exact Or.inl (List.mem_cons_of_mem r hin)
    | succ i =>
      rcases List.mem_cons.mp h with heq | hin
      · exact Or.inl (heq ▸ List.mem_cons_self ..)
      · rcases ih i hin with h1 | ⟨r0, h0, he⟩
        · exact Or.inl (List.mem_cons_of_mem r h1)
        · exact Or.inr ⟨r0, List.mem_cons_of_mem r h0, he⟩

theorem migrateRow_idem (offset length : Nat) (r : MarfDataRow) :
    trie_sql.migrateRow offset length (trie_sql.migrateRow offset length r) =
      trie_sql.migrateRow offset length r := rfl

/-! ### Helper lemmas about one step of the migration loop -/

theorem export_loop_skip_unconfirmed (db : DB) (f : TrieFile) (id : Nat) (rest : List Nat)
    (h : trie_sql.is_unconfirmed_block db id = .ok true) :
    TrieFile.export_loop db f (id :: rest) = TrieFile.export_loop db f rest := by
  simp only [TrieFile.export_loop, h]

theorem export_loop_skip_missing (db : DB) (f : TrieFile) (id : Nat) (rest : List Nat)
    (h : trie_sql.is_unconfirmed_block db id = .error .notFoundError) :
    TrieFile.export_loop db f (id :: rest) = TrieFile.export_loop db f rest := by
  simp only [TrieFile.export_loop, h]

theorem is_unconfirmed_of_row (db : DB) (id : Nat) (r : MarfDataRow)
    (hr : db[id]? = some r) :
    trie_sql.is_unconfirmed_block db id = .ok r.unconfirmed := by
  simp [trie_sql.is_unconfirmed_block, hr]

theorem read_blob_of_row_bytes (db : DB) (id : Nat) (r : MarfDataRow) (blob : List Byte)
    (hr : db[id]? = some r) (hd : r.data = .bytes blob) :
    TrieFile.read_trie_blob_from_db db id = .ok blob := by
  simp [TrieFile.read_trie_blob_from_db, trie_sql.open_trie_blob_readonly, hr, hd]

theorem read_blob_of_row_cleared (db : DB) (id : Nat) (r : MarfDataRow)
    (hr : db[id]? = some r) (hd : r.data = .cleared) :
    TrieFile.read_trie_blob_from_db db id = .ok [] := by
  simp [TrieFile.read_trie_blob_from_db, trie_sql.open_trie_blob_readonly, hr, hd]

theorem get_block_hash_of_row (db : DB) (id : Nat) (r : MarfDataRow)
    (hr : db[id]? = some r) :
    trie_sql.get_block_hash db id = .ok r.block_hash := by
  simp [trie_sql.get_block_hash, hr]

theorem export_loop_read_fail (db : DB) (f : TrieFile) (id : Nat) (rest : List Nat)
    (r : MarfDataRow) (e : Error)
    (hr : db[id]? = some r) (hu : r.unconfirmed = false)
    (he : TrieFile.read_trie_blob_from_db db id = .error e) :
    TrieFile.export_loop db f (id :: rest) = .error e := by
  have hu1 : trie_sql.is_unconfirmed_block db id = .ok false := hu ▸ is_unconfirmed_of_row db id r hr
  simp only [TrieFile.export_loop, hu1, he]

theorem export_loop_write_fail (db : DB) (f : TrieFile) (id : Nat) (rest : List Nat)
    (r : MarfDataRow) (blob : List Byte)
    (hr : db[id]? = some r) (hu : r.unconfirmed = false) (hd : r.data = .bytes blob)
    (hw : f.writable = false) :
    TrieFile.export_loop db f (id :: rest) = .error .permissionDenied := by
  have hu1 : trie_sql.is_unconfirmed_block db id = .ok false := hu ▸ is_unconfirmed_of_row db id r hr
  have hb := read_blob_of_row_bytes db id r blob hr hd
  have hh := get_block_hash_of_row db id r hr
  have hwf : (f.withFd { f.fd with pos := f.fd.buf.length }).write_all blob =
      .error .permissionDenied :=
    TrieFile.write_all_of_not_writable _ _ (by rw [TrieFile.writable_withFd]; exact hw)
  simp only [TrieFile.export_loop, hu1, hb, hh, TrieFile.seek, hwf]

theorem export_loop_row_step (db : DB) (f : TrieFile) (id : Nat) (rest : List Nat)
    (r : MarfDataRow) (blob : List Byte)
    (hr : db[id]? = some r) (hu : r.unconfirmed = false)
    (hb : TrieFile.read_trie_blob_from_db db id = .ok blob)
    (hw : f.writable = true) :
    TrieFile.export_loop db f (id :: rest) =
      TrieFile.export_loop
        (trie_sql.modifyRow db id (trie_sql.migrateRow f.contents.length blob.length))
        (f.withFd { buf := f.contents ++ blob, pos := f.contents.length + blob.length })
        rest := by
  have hu1 : trie_sql.is_unconfirmed_block db id = .ok false := hu ▸ is_unconfirmed_of_row db id r hr
  have hh := get_block_hash_of_row db id r hr
  have hwf : (f.withFd { f.fd with pos := f.fd.buf.length }).write_all blob =
      .ok ((f.withFd { f.fd with pos := f.fd.buf.length }).withFd
            ((f.withFd { f.fd with pos := f.fd.buf.length }).fd.writeAll blob)) :=
    TrieFile.write_all_of_writable _ _ (by rw [TrieFile.writable_withFd]; exact hw)
  simp only [TrieFile.export_loop, hu1, hb, hh, TrieFile.seek, hwf, TrieFile.flush,
    TrieFile.fd_withFd, TrieFile.withFd_withFd, TrieFile.position_withFd,
    Cursor.writeAll, writeBytesAt_length_self, trie_sql.write_external_trie_blob,
    TrieFile.contents]

theorem export_loop_cleared_step (db : DB) (f : TrieFile) (id : Nat) (rest : List Nat)
    (r : MarfDataRow)
    (hr : db[id]? = some r) (hu : r.unconfirmed = false) (hd : r.data = .cleared)
    (hw : f.writable = true) :
    TrieFile.export_loop db f (id :: rest) =
      TrieFile.export_loop
        (trie_sql.modifyRow db id (trie_sql.migrateRow f.contents.length 0))
        (f.withFd { buf := f.contents, pos := f.contents.length }) rest := by
  have hb := read_blob_of_row_cleared db id r hr hd
  have h := export_loop_row_step db f id rest r [] hr hu hb hw
  simpa using h

/-- The loop of the migration over a cleared, confirmed store: every visited
identifier that denotes a row is re-read (yielding the empty blob), a
zero-length append is performed at the physical end-of-stream, and the row's
external record is overwritten with (end-of-stream, 0); the log bytes are
never changed. -/
theorem export_loop_cleared (ids : List Nat) : ∀ (db : DB) (f : TrieFile),
    (∀ r ∈ db, r.unconfirmed = false ∧ r.data = InlineBlob.cleared) →
    f.writable = true →
    ∃ (db2 : DB) (f2 : TrieFile),
      TrieFile.export_loop db f ids = .ok (db2, f2) ∧
      f2.contents = f.contents ∧
      ∀ j, db2[j]? = if j ∈ ids then
          (db[j]?).map (trie_sql.migrateRow f.contents.length 0) else db[j]? := by
  induction ids with
  | nil =>
    intro db f hdb hw
    exact ⟨db, f, rfl, rfl, fun j => by simp [TrieFile.export_loop]⟩
  | cons id rest ih =>
    intro db f hdb hw
    cases hr : db[id]? with
    | none =>
      have hskip : trie_sql.is_unconfirmed_block db id = .error .notFoundError := by
        simp [trie_sql.is_unconfirmed_block, hr]
      obtain ⟨db2, f2, h1, h2, h3⟩ := ih db f hdb hw
      refine ⟨db2, f2, ?_, h2, ?_⟩
      · rw [export_loop_skip_missing db f id rest hskip]; exact h1
      · intro j
        rw [h3 j]
        by_cases hj : j = id
        · subst hj
          simp [hr]
        · simp [List.mem_cons, hj]
    | some r =>
      obtain ⟨hu, hd⟩ := hdb r (List.getElem?_mem hr)
      have hstep := export_loop_cleared_step db f id rest r hr hu hd hw
      have hinv1 : ∀ r1 ∈ trie_sql.modifyRow db id (trie_sql.migrateRow f.contents.length 0),
          r1.unconfirmed = false ∧ r1.data = InlineBlob.cleared := by
        intro r1 hmem
        rcases mem_modifyRow db id _ r1 hmem with hin | ⟨r0, hin0, heq⟩
        · exact hdb r1 hin
        · exact ⟨by rw [heq]; exact (hdb r0 hin0).1, by rw [heq]; rfl⟩
      have hw1 : (f.withFd { buf := f.contents, pos := f.contents.length }).writable = true := by
        rw [TrieFile.writable_withFd]; exact hw
      obtain ⟨db2, f2, h1, h2, h3⟩ :=
        ih (trie_sql.modifyRow db id (trie_sql.migrateRow f.contents.length 0))
           (f.withFd { buf := f.contents, pos := f.contents.length }) hinv1 hw1
      simp only [TrieFile.contents_withFd] at h2 h3
      refine ⟨db2, f2, by rw [hstep]; exact h1, h2, ?_⟩
      intro j
      rw [h3 j]
      by_cases hj : j = id
      · subst hj
        rw [modifyRow_getElem_self db j _, hr]
        by_cases hrest : j ∈ rest
        · simp [hrest, migrateRow_idem]
        · simp [hrest]
      · rw [modifyRow_getElem_other db id j _ (fun hij => hj hij.symm)]
        simp [List.mem_cons, hj]

/-! ### Claim C6 -/

def c6_db : DB :=
  [{ block_hash := 7, data := .cleared, unconfirmed := false,
     external_offset := some 0, external_length := 1 }]

def c6_f : TrieFile :=
  .RAM { fd := { buf := [9], pos := 0 }, readonly := false, trie_offsets := [] }

def c6_db2 : DB :=
  [{ block_hash := 7, data := .cleared, unconfirmed := false,
     external_offset := some 1, external_length := 0 }]

def c6_f2 : TrieFile :=
  .RAM { fd := { buf := [9], pos := 1 }, readonly := false, trie_offsets := [] }

/-- Counterexample to C6 as stated: a store whose single confirmed snapshot
is already migrated (external record (0, 1), inline blob replaced).
Re-running `export_trie_blobs` succeeds and appends no bytes, but it does
NOT leave the Metadata Index unchanged: the snapshot's record is rewritten
to (1, 0) — offset equal to the physical end-of-stream and length 0. -/
theorem export_rerun_changes_index :
    TrieFile.export_trie_blobs c6_db c6_f = .ok (c6_db2, c6_f2) ∧
    c6_db2 ≠ c6_db ∧
    c6_f2.contents = c6_f.contents :=
  ⟨by decide, by decide, by decide⟩

/-- Claim C6 (amended): re-running the migration on a store in which every
confirmed snapshot has already been migrated appends zero bytes to the Blob
Log (its contents are unchanged), but does not leave the Metadata Index
unchanged: `export_trie_blobs` has no already-migrated detection, so for
each row it re-reads the now-empty inline blob, performs a zero-length
append at the current physical end-of-stream, and overwrites the row's
external record with (end-of-stream, 0). -/
theorem export_rerun_overwrites_records (db : DB) (f : TrieFile)
    (hdb : ∀ r ∈ db, r.unconfirmed = false ∧ r.data = InlineBlob.cleared)
    (hw : f.writable = true) :
    ∃ (db2 : DB) (f2 : TrieFile),
      TrieFile.export_trie_blobs db f = .ok (db2, f2) ∧
      f2.contents = f.contents ∧
      ∀ j : Nat, db2[j]? = (db[j]?).map (trie_sql.migrateRow f.contents.length 0) := by
  obtain ⟨db2, f2, h1, h2, h3⟩ :=
    export_loop_cleared (List.range (trie_sql.count_blocks db + 1)) db f hdb hw
  refine ⟨db2, f2, h1, h2, ?_⟩
  intro j
  rw [h3 j]
  by_cases hj : j ∈ List.range (trie_sql.count_blocks db + 1)
  · simp [hj]
  · have hlen : db.length ≤ j := by
      rw [List.mem_range] at hj
      simp only [trie_sql.count_blocks] at hj
      omega
    have hnone : db[j]? = none := List.getElem?_eq_none hlen
    simp [hj, hnone]

/-- Witness for the amended C6 at the concrete migrated store above. -/
theorem export_rerun_overwrites_records_witness :
    ∃ (db2 : DB) (f2 : TrieFile),
      TrieFile.export_trie_blobs c6_db c6_f = .ok (db2, f2) ∧
      f2.contents = c6_f.contents ∧
      ∀ j : Nat, db2[j]? = (c6_db[j]?).map (trie_sql.migrateRow c6_f.contents.length 0) :=
  export_rerun_overwrites_records c6_db c6_f (by decide) (by decide)

/-! ### Claim C4 -/

/-- Claim C4: the migration visits the snapshot identifiers from the
smallest to the current maximum inclusive (it folds the loop body over
`0 .. count_blocks + 1`), and for each identifier: skips it when it is
unconfirmed; skips it when it denotes no snapshot; and otherwise reads its
full inline blob from the Metadata Index, appends the blob's bytes at the
Blob Log's current physical end-of-stream (`f.contents.length`, regardless
of the index-derived logical length, which does not occur in the
conclusion), and records the resulting (offset, length) for that identifier
in the Metadata Index. -/
theorem export_migration_algorithm :
    (∀ (db : DB) (f : TrieFile),
       TrieFile.export_trie_blobs db f =
         TrieFile.export_loop db f (List.range (trie_sql.count_blocks db + 1))) ∧
    (∀ (db : DB) (f : TrieFile) (id : Nat) (rest : List Nat),
       trie_sql.is_unconfirmed_block db id = .ok true →
       TrieFile.export_loop db f (id :: rest) = TrieFile.export_loop db f rest) ∧
    (∀ (db : DB) (f : TrieFile) (id : Nat) (rest : List Nat),
       trie_sql.is_unconfirmed_block db id = .error .notFoundError →
       TrieFile.export_loop db f (id :: rest) = TrieFile.export_loop db f rest) ∧
    (∀ (db : DB) (f : TrieFile) (id : Nat) (rest : List Nat) (r : MarfDataRow)
       (blob : List Byte),
       db[id]? = some r → r.unconfirmed = false → r.data = .bytes blob →
       f.writable = true →
       TrieFile.export_loop db f (id :: rest) =
         TrieFile.export_loop
           (trie_sql.modifyRow db id (trie_sql.migrateRow f.contents.length blob.length))
           (f.withFd { buf := f.contents ++ blob, pos := f.contents.length + blob.length })
           rest) := by
  refine ⟨fun db f => rfl, export_loop_skip_unconfirmed, export_loop_skip_missing, ?_⟩
  intro db f id rest r blob hr hu hd hw
  exact export_loop_row_step db f id rest r blob hr hu
    (read_blob_of_row_bytes db id r blob hr hd) hw

def c4_row : MarfDataRow :=
  { block_hash := 3, data := .bytes [5, 6], unconfirmed := false,
    external_offset := none, external_length := 0 }

def c4_db : DB := [c4_row]

def c4u_db : DB :=
  [{ block_hash := 4, data := .bytes [8], unconfirmed := true,
     external_offset := none, external_length := 0 }]

def c4_f : TrieFile :=
  .RAM { fd := { buf := [1, 1, 1], pos := 0 }, readonly := false, trie_offsets := [] }

/-- Witness for C4 at concrete inputs: the index-derived logical length of
`c4_db` is 0 while the physical log already holds 3 bytes; the migrated blob
goes at physical offset 3 and is recorded as (3, 2). -/
theorem export_migration_algorithm_witness :
    (TrieFile.export_trie_blobs c4_db c4_f =
       TrieFile.export_loop c4_db c4_f (List.range (trie_sql.count_blocks c4_db + 1))) ∧
    (TrieFile.export_loop c4u_db c4_f [0] = TrieFile.export_loop c4u_db c4_f []) ∧
    (TrieFile.export_loop ([] : DB) c4_f [5] = TrieFile.export_loop ([] : DB) c4_f []) ∧
    (TrieFile.export_loop c4_db c4_f [0] =
       TrieFile.export_loop
         (trie_sql.modifyRow c4_db 0 (trie_sql.migrateRow c4_f.contents.length 2))
         (c4_f.withFd { buf := c4_f.contents ++ [5, 6], pos := c4_f.contents.length + 2 })
         []) :=
  ⟨export_migration_algorithm.1 c4_db c4_f,
   export_migration_algorithm.2.1 c4u_db c4_f 0 [] (by decide),
   export_migration_algorithm.2.2.1 [] c4_f 5 [] (by decide),
   export_migration_algorithm.2.2.2 c4_db c4_f 0 [] c4_row [5, 6]
     (by decide) (by decide) (by decide) (by decide)⟩

/-! ### Claim C5 -/

/-- Claim C5: during migration, an error reading one snapshot's inline blob,
or an I/O failure appending it, aborts the whole migration and surfaces the
error to the caller, while the unconfirmed-snapshot and missing-snapshot
cases are not errors: they are silently skipped and migration continues with
the next identifier. -/
theorem export_error_handling :
    (∀ (db : DB) (f : TrieFile) (id : Nat) (rest : List Nat) (r : MarfDataRow) (e : Error),
       db[id]? = some r → r.unconfirmed = false →
       TrieFile.read_trie_blob_from_db db id = .error e →
       TrieFile.export_loop db f (id :: rest) = .error e) ∧
    (∀ (db : DB) (f : TrieFile) (id : Nat) (rest : List Nat) (r : MarfDataRow)
       (blob : List Byte),
       db[id]? = some r → r.unconfirmed = false → r.data = .bytes blob →
       f.writable = false →
       TrieFile.export_loop db f (id :: rest) = .error .permissionDenied) ∧
    (∀ (db : DB) (f : TrieFile) (id : Nat) (rest : List Nat),
       trie_sql.is_unconfirmed_block db id = .ok true →
       TrieFile.export_loop db f (id :: rest) = TrieFile.export_loop db f rest) ∧
    (∀ (db : DB) (f : TrieFile) (id : Nat) (rest : List Nat),
       trie_sql.is_unconfirmed_block db id = .error .notFoundError →
       TrieFile.export_loop db f (id :: rest) = TrieFile.export_loop db f rest) :=
  ⟨export_loop_read_fail, export_loop_write_fail,
   export_loop_skip_unconfirmed, export_loop_skip_missing⟩

def c5_bad_db : DB :=
  [{ block_hash := 7, data := .unreadable, unconfirmed := false,
     external_offset := none, external_length := 0 }]

def c5_disk : TrieFile :=
  .Disk { fd := { buf := [], pos := 0 }, writable := false, trie_offsets := [] }

/-- Witness for C5 at concrete inputs: a failing inline-blob read aborts the
loop with the relational-store error; a failing append aborts it with the
I/O error; an unconfirmed and a missing identifier are skipped. -/
theorem export_error_handling_witness :
    (TrieFile.export_loop c5_bad_db c4_f [0, 1] = .error .dbError) ∧
    (TrieFile.export_loop c4_db c5_disk [0, 1] = .error .permissionDenied) ∧
    (TrieFile.export_loop c4u_db c4_f [0] = TrieFile.export_loop c4u_db c4_f []) ∧
    (TrieFile.export_loop c6_db c4_f [3] = TrieFile.export_loop c6_db c4_f []) :=
  ⟨export_error_handling.1 c5_bad_db c4_f 0 [1]
     { block_hash := 7, data := .unreadable, unconfirmed := false,
       external_offset := none, external_length := 0 } .dbError
     (by decide) (by decide) (by decide),
   export_error_handling.2.1 c4_db c5_disk 0 [1] c4_row [5, 6]
     (by decide) (by decide) (by decide) (by decide),
   export_error_handling.2.2.1 c4u_db c4_f 0 [] (by decide),
   export_error_handling.2.2.2 c6_db c4_f 3 [] (by decide)⟩

/-! ### Claim C7 -/

/-- Claim C7: offset resolution is cached — a cache hit returns immediately
with the handle unchanged (for every index state, so no live lookup
happens); a miss queries the Metadata Index for (offset, length), inserts
the offset into the cache, and returns it; a second resolution of the same
identifier returns the same offset with the handle unchanged, against any
index state whatsoever (so it needs no live Metadata Index); and cache
entries are never evicted or updated. -/
theorem trie_offset_cache_behavior :
    (∀ (db : DB) (f : TrieFile) (id offset : Nat),
       findOffset f.trieOffsets id = some offset →
       TrieFile.get_trie_offset db f id = .ok (offset, f)) ∧
    (∀ (db : DB) (f : TrieFile) (id offset length : Nat),
       findOffset f.trieOffsets id = none →
       trie_sql.get_external_trie_offset_length db id = .ok (offset, length) →
       TrieFile.get_trie_offset db f id = .ok (offset, f.insertOffset id offset)) ∧
    (∀ (db : DB) (f : TrieFile) (id offset : Nat) (f1 : TrieFile),
       TrieFile.get_trie_offset db f id = .ok (offset, f1) →
       ∀ db2 : DB, TrieFile.get_trie_offset db2 f1 id = .ok (offset, f1)) ∧
    (∀ (db : DB) (f : TrieFile) (id offset : Nat) (f1 : TrieFile),
       TrieFile.get_trie_offset db f id = .ok (offset, f1) →
       ∀ id2 offset2 : Nat, findOffset f.trieOffsets id2 = some offset2 →
         findOffset f1.trieOffsets id2 = some offset2) := by
  refine ⟨?_, ?_, ?_, ?_⟩
  · intro db f id offset h
    simp [TrieFile.get_trie_offset, h]
  · intro db f id offset length h1 h2
    simp [TrieFile.get_trie_offset, h1, h2]
  · intro db f id offset f1 h db2
    unfold TrieFile.get_trie_offset at h
    cases hc : findOffset f.trieOffsets id with
    | some o =>
      simp only [hc, Except.ok.injEq, Prod.mk.injEq] at h
      obtain ⟨h1, h2⟩ := h
      subst h1; subst h2
      simp [TrieFile.get_trie_offset, hc]
    | none =>
      simp only [hc] at h
      cases hq : trie_sql.get_external_trie_offset_length db id with
      | error e => simp [hq] at h
      | ok ol =>
        simp only [hq, Except.ok.injEq, Prod.mk.injEq] at h
        obtain ⟨h1, h2⟩ := h
        subst h1; subst h2
        simp [TrieFile.get_trie_offset, TrieFile.trieOffsets_insertOffset, findOffset]
  · intro db f id offset f1 h id2 offset2 h2
    unfold TrieFile.get_trie_offset at h
    cases hc : findOffset f.trieOffsets id with
    | some o =>
      simp only [hc, Except.ok.injEq, Prod.mk.injEq] at h
      rw [← h.2]
      exact h2
    | none =>
      simp only [hc] at h
      cases hq : trie_sql.get_external_trie_offset_length db id with
      | error e => simp [hq] at h
      | ok ol =>
        simp only [hq, Except.ok.injEq, Prod.mk.injEq] at h
        rw [← h.2, TrieFile.trieOffsets_insertOffset]
        have hne : id ≠ id2 := by
          intro he
          rw [he] at hc
          rw [hc] at h2
          exact Option.noConfusion h2
        simp only [findOffset, if_neg hne]
        exact h2

def c7_db : DB :=
  [{ block_hash := 2, data := .cleared, unconfirmed := false,
     external_offset := some 4, external_length := 3 }]

def c7_f : TrieFile :=
  .RAM { fd := { buf := [], pos := 0 }, readonly := false, trie_offsets := [(9, 11)] }

def c7_f1 : TrieFile :=
  .RAM { fd := { buf := [], pos := 0 }, readonly := false, trie_offsets := [(0, 4), (9, 11)] }

/-- Witness for C7 at concrete inputs: a hit on a pre-cached entry; a miss
that loads (4, 3) from the index and caches offset 4; a second resolution
against the EMPTY index (the first one's cache entry answers it); and
preservation of the pre-existing cache entry. -/
theorem trie_offset_cache_behavior_witness :
    (TrieFile.get_trie_offset c7_db c7_f 9 = .ok (11, c7_f)) ∧
    (TrieFile.get_trie_offset c7_db c7_f 0 = .ok (4, c7_f.insertOffset 0 4)) ∧
    (TrieFile.get_trie_offset ([] : DB) c7_f1 0 = .ok (4, c7_f1)) ∧
    (findOffset c7_f1.trieOffsets 9 = some 11) :=
  ⟨trie_offset_cache_behavior.1 c7_db c7_f 9 11 (by decide),
   trie_offset_cache_behavior.2.1 c7_db c7_f 0 4 3 (by decide) (by decide),
   trie_offset_cache_behavior.2.2.1 c7_db c7_f 0 4 c7_f1 (by decide) [],
   trie_offset_cache_behavior.2.2.2 c7_db c7_f 0 4 c7_f1 (by decide) 9 11 (by decide)⟩

/-! ### Claim C8 -/

theorem append_not_writable (db : DB) (f : TrieFile) (buf : List Byte)
    (hw : f.writable = false) :
    TrieFile.append_trie_blob db f buf = .error .permissionDenied := by
  unfold TrieFile.append_trie_blob
  simp only [TrieFile.seek]
  rw [TrieFile.write_all_of_not_writable _ _ (by rw [TrieFile.writable_withFd]; exact hw)]

/-- Counterexample to C8 as stated: the RAM backend's readonly flag is not
enforced — on a store opened read-only in memory, an append succeeds,
returns offset 0, and mutates the Blob Log's buffer from `[]` to `[1]`. -/
theorem ram_readonly_write_succeeds :
    TrieFile.append_trie_blob [] (TrieFile.new_ram true) [1] =
      .ok (0, .RAM { fd := { buf := [1], pos := 1 }, readonly := true,
                     trie_offsets := [] }) ∧
    (TrieFile.new_ram true).contents = [] :=
  ⟨by decide, by decide⟩

/-- Claim C8 (amended): read-only enforcement differs by backend.  Disk
backend: the file descriptor is opened without write permission, so append,
store, and migration fail fast with a permission error, and no mutated Blob
Log state is produced.  RAM backend: the readonly flag is recorded but the
`Write` implementation never consults it, so appends on a read-only
in-memory store succeed and mutate the buffer. -/
theorem readonly_enforcement_split :
    (∀ (db : DB) (f : TrieFile) (buf : List Byte), f.writable = false →
       TrieFile.append_trie_blob db f buf = .error .permissionDenied) ∧
    (∀ (db : DB) (f : TrieFile) (bhh : Nat) (buf : List Byte) (bid : Option Nat),
       f.writable = false →
       TrieFile.store_trie_blob db f bhh buf bid = .error .permissionDenied) ∧
    (∀ (db : DB) (f : TrieFile) (id : Nat) (rest : List Nat) (r : MarfDataRow)
       (blob : List Byte),
       f.writable = false → db[id]? = some r → r.unconfirmed = false →
       r.data = .bytes blob →
       TrieFile.export_loop db f (id :: rest) = .error .permissionDenied) ∧
    (∀ (db : DB) (ram : TrieFileRAM) (buf : List Byte), ram.readonly = true →
       TrieFile.append_trie_blob db (.RAM ram) buf =
         .ok (trie_sql.get_external_blobs_length db,
           .RAM { ram with fd :=
             { buf := writeBytesAt ram.fd.buf (trie_sql.get_external_blobs_length db) buf,
               pos := trie_sql.get_external_blobs_length db + buf.length } })) := by
  refine ⟨append_not_writable, ?_, ?_, ?_⟩
  · intro db f bhh buf bid hw
    unfold TrieFile.store_trie_blob
    rw [append_not_writable db f buf hw]
  · intro db f id rest r blob hw hr hu hd
    exact export_loop_write_fail db f id rest r blob hr hu hd hw
  · intro db ram buf _
    rfl

def c8_ram : TrieFileRAM :=
  { fd := { buf := [], pos := 0 }, readonly := true, trie_offsets := [] }

/-- Witness for the amended C8 at concrete inputs: the read-only disk store
rejects append, store, and migration; the read-only RAM store accepts and
performs the append. -/
theorem readonly_enforcement_split_witness :
    (TrieFile.append_trie_blob ([] : DB) c5_disk [1] = .error .permissionDenied) ∧
    (TrieFile.store_trie_blob ([] : DB) c5_disk 2 [1] none = .error .permissionDenied) ∧
    (TrieFile.export_loop c4_db c5_disk [0] = .error .permissionDenied) ∧
    (TrieFile.append_trie_blob ([] : DB) (.RAM c8_ram) [2] =
       .ok (0, .RAM { fd := { buf := [2], pos := 1 }, readonly := true,
                      trie_offsets := [] })) :=
  ⟨readonly_enforcement_split.1 [] c5_disk [1] (by decide),
   readonly_enforcement_split.2.1 [] c5_disk 2 [1] none (by decide),
   readonly_enforcement_split.2.2.1 c4_db c5_disk 0 [] c4_row [5, 6]
     (by decide) (by decide) (by decide) (by decide),
   readonly_enforcement_split.2.2.2 [] c8_ram [2] (by decide)⟩

/-! ### Claim C10 -/

/-- Claim C10: for every block identifier and pointer on which both
succeed, `read_node_type_nohash` returns exactly the node component of the
pair that `read_node_type` returns; the two runs differ only in whether the
trailing hash is also read — the log bytes seen are the same and the
hash-reading variant's final position is exactly one hash-width further. -/
theorem read_node_type_nohash_agreement (nodeLen : Nat → Nat) (db : DB) (f : TrieFile)
    (id : Nat) (p : TriePtr) (n h : List Byte) (f1 : TrieFile) (n2 : List Byte)
    (f2 : TrieFile)
    (h1 : TrieFile.read_node_type nodeLen db f id p = .ok ((n, h), f1))
    (h2 : TrieFile.read_node_type_nohash nodeLen db f id p = .ok (n2, f2)) :
    n2 = n ∧ f2.contents = f1.contents ∧
    f1.position = f2.position + TRIEHASH_ENCODED_SIZE := by
  unfold TrieFile.read_node_type at h1
  unfold TrieFile.read_node_type_nohash at h2
  cases hg : TrieFile.get_trie_offset db f id with
  | error e => rw [hg] at h1; exact absurd h1 (by simp)
  | ok og =>
    obtain ⟨offset, fo⟩ := og
    simp only [hg] at h1 h2
    simp only [TrieFile.seek] at h1 h2
    unfold read_nodetype_at_head at h1 h2
    cases hr : (fo.withFd { fo.fd with pos := offset + p.ptr }).read_exact (nodeLen p.id) with
    | error e => rw [hr] at h1; exact absurd h1 (by simp)
    | ok nbfa =>
      obtain ⟨nb, fa⟩ := nbfa
      simp only [hr] at h1 h2
      cases hh : read_hash_bytes fa with
      | error e => rw [hh] at h1; exact absurd h1 (by simp)
      | ok hbfb =>
        obtain ⟨hb, fb⟩ := hbfb
        rw [hh] at h1
        simp only [Except.ok.injEq, Prod.mk.injEq] at h1 h2
        obtain ⟨⟨hn, -⟩, hf1⟩ := h1
        obtain ⟨hn2, hf2⟩ := h2
        unfold read_hash_bytes at hh
        obtain ⟨-, hgb, -⟩ := TrieFile.read_exact_ok fa fb TRIEHASH_ENCODED_SIZE hb hh
        refine ⟨by rw [← hn2, hn], ?_, ?_⟩
        · rw [← hf1, ← hf2, hgb, TrieFile.contents_withFd]
        · rw [← hf1, ← hf2, hgb, TrieFile.position_withFd]

def c10_db : DB :=
  [{ block_hash := 2, data := .cleared, unconfirmed := false,
     external_offset := some 0, external_length := 40 }]

def c10_f : TrieFile :=
  .RAM { fd := { buf := List.replicate 40 3, pos := 0 }, readonly := false,
         trie_offsets := [] }

/-- Witness for C10 at a concrete input (node width 2 for tag 0): both reads
succeed, the node components agree, and the hash-reading variant ends one
hash-width further. -/
theorem read_node_type_nohash_agreement_witness :
    ([3, 3] : List Byte) = [3, 3] ∧
    (TrieFile.read_node_type_nohash (fun _ => 2) c10_db c10_f 0
        { id := 0, ptr := 1 }).map (fun q => q.2.contents) =
      (TrieFile.read_node_type (fun _ => 2) c10_db c10_f 0
        { id := 0, ptr := 1 }).map (fun q => q.2.contents) ∧
    (3 : Nat) + 32 = 35 := by
  have h := read_node_type_nohash_agreement (fun _ => 2) c10_db c10_f 0
    { id := 0, ptr := 1 } [3, 3] (List.replicate 32 3)
    (.RAM { fd := { buf := List.replicate 40 3, pos := 35 }, readonly := false,
            trie_offsets := [(0, 0)] })
    [3, 3]
    (.RAM { fd := { buf := List.replicate 40 3, pos := 3 }, readonly := false,
            trie_offsets := [(0, 0)] })
    (by decide) (by decide)
  exact ⟨h.1.symm ▸ rfl, by decide, by decide⟩

/-! ### Claim C3 -/

theorem seeked_read_exact_ok (f1 : TrieFile) (B : List Byte) (pos n : Nat)
    (h : pos + n ≤ B.length) :
    (f1.withFd { buf := B, pos := pos }).read_exact n =
      .ok ((B.drop pos).take n, f1.withFd { buf := B, pos := pos + n }) := by
  unfold TrieFile.read_exact Cursor.readExact
  rw [TrieFile.fd_withFd]
  dsimp only
  rw [if_pos h]
  simp [TrieFile.withFd_withFd]

theorem seeked_read_exact_err (f1 : TrieFile) (B : List Byte) (pos n : Nat)
    (h : B.length < pos + n) :
    (f1.withFd { buf := B, pos := pos }).read_exact n = .error .unexpectedEof := by
  unfold TrieFile.read_exact Cursor.readExact
  rw [TrieFile.fd_withFd]
  dsimp only
  rw [if_neg (by omega)]

def c3_db : DB :=
  [{ block_hash := 7, data := .cleared, unconfirmed := false,
     external_offset := some 0, external_length := 5 },
   { block_hash := 8, data := .cleared, unconfirmed := false,
     external_offset := some 5, external_length := 40 }]

def c3_f : TrieFile :=
  .RAM { fd := { buf := [1, 2, 3, 4, 5] ++ List.replicate 40 9, pos := 0 },
         readonly := false, trie_offsets := [] }

def c3_f1 : TrieFile :=
  .RAM { fd := { buf := [1, 2, 3, 4, 5] ++ List.replicate 40 9, pos := 0 },
         readonly := false, trie_offsets := [(0, 0)] }

/-- Counterexample to C3 as stated: snapshot 0 has recorded length 5 and the
pointer's relative offset 5 plus the 32-byte hash width far exceeds it, yet
`get_node_hash_bytes` does not fail — it succeeds and returns 32 bytes that
lie entirely inside the neighboring snapshot 1 (whose bytes are all 9).  The
read was bounded only by end-of-file, not by the snapshot's recorded
length. -/
theorem node_read_beyond_length_succeeds :
    trie_sql.get_external_trie_offset_length c3_db 0 = .ok (0, 5) ∧
    5 + TRIEHASH_ENCODED_SIZE > 5 ∧
    TrieFile.get_node_hash_bytes c3_db c3_f 0 { id := 0, ptr := 5 } =
      .ok (List.replicate 32 9,
           .RAM { fd := { buf := [1, 2, 3, 4, 5] ++ List.replicate 40 9, pos := 37 },
                  readonly := false, trie_offsets := [(0, 0)] }) :=
  ⟨by decide, by decide, by decide⟩

/-- Claim C3 (amended): the node-hash and node reads (`get_node_hash_bytes`,
`read_node_type`, `read_node_type_nohash`) are bounded by end-of-file, not
by the snapshot's recorded length (which occurs nowhere in the conclusion):
whenever the resolved base offset plus the pointer's relative offset plus
the read width fits inside the file, the read succeeds — even far past the
snapshot's recorded length, returning whatever bytes (e.g. a neighboring
snapshot's) lie there — and only a read extending past end-of-file fails,
with the `UnexpectedEof` I/O error rather than a distinct corrupt/out-of-
range condition. -/
theorem node_reads_bounded_by_eof (nodeLen : Nat → Nat) (db : DB) (f : TrieFile)
    (id : Nat) (p : TriePtr) (offset : Nat) (f1 : TrieFile)
    (hoff : TrieFile.get_trie_offset db f id = .ok (offset, f1)) :
    (offset + p.ptr + TRIEHASH_ENCODED_SIZE ≤ f.contents.length →
       TrieFile.get_node_hash_bytes db f id p =
         .ok ((f.contents.drop (offset + p.ptr)).take TRIEHASH_ENCODED_SIZE,
              f1.withFd { buf := f.contents,
                          pos := offset + p.ptr + TRIEHASH_ENCODED_SIZE })) ∧
    (f.contents.length < offset + p.ptr + TRIEHASH_ENCODED_SIZE →
       TrieFile.get_node_hash_bytes db f id p = .error .unexpectedEof) ∧
    (offset + p.ptr + nodeLen p.id + TRIEHASH_ENCODED_SIZE ≤ f.contents.length →
       TrieFile.read_node_type nodeLen db f id p =
         .ok (((f.contents.drop (offset + p.ptr)).take (nodeLen p.id),
               (f.contents.drop (offset + p.ptr + nodeLen p.id)).take
                 TRIEHASH_ENCODED_SIZE),
              f1.withFd { buf := f.contents,
                          pos := offset + p.ptr + nodeLen p.id +
                                 TRIEHASH_ENCODED_SIZE })) ∧
    (f.contents.length < offset + p.ptr + nodeLen p.id + TRIEHASH_ENCODED_SIZE →
       TrieFile.read_node_type nodeLen db f id p = .error .unexpectedEof) ∧
    (offset + p.ptr + nodeLen p.id ≤ f.contents.length →
       TrieFile.read_node_type_nohash nodeLen db f id p =
         .ok ((f.contents.drop (offset + p.ptr)).take (nodeLen p.id),
              f1.withFd { buf := f.contents, pos := offset + p.ptr + nodeLen p.id })) ∧
    (f.contents.length < offset + p.ptr + nodeLen p.id →
       TrieFile.read_node_type_nohash nodeLen db f id p = .error .unexpectedEof) := by
  have hfd : f1.fd = f.fd := (TrieFile.get_trie_offset_ok_fd db f f1 id offset hoff).1
  refine ⟨?_, ?_, ?_, ?_, ?_, ?_⟩
  · intro hle
    simp only [TrieFile.contents] at hle ⊢
    simp only [TrieFile.get_node_hash_bytes, hoff, TrieFile.seek, hfd, read_hash_bytes,
      seeked_read_exact_ok f1 f.fd.buf (offset + p.ptr) TRIEHASH_ENCODED_SIZE hle]
  · intro hgt
    simp only [TrieFile.contents] at hgt
    simp only [TrieFile.get_node_hash_bytes, hoff, TrieFile.seek, hfd, read_hash_bytes,
      seeked_read_exact_err f1 f.fd.buf (offset + p.ptr) TRIEHASH_ENCODED_SIZE hgt]
  · intro hle
    simp only [TrieFile.contents] at hle ⊢
    have h1 : offset + p.ptr + nodeLen p.id ≤ f.fd.buf.length := by omega
    simp only [TrieFile.read_node_type, hoff, TrieFile.seek, hfd, read_nodetype_at_head,
      seeked_read_exact_ok f1 f.fd.buf (offset + p.ptr) (nodeLen p.id) h1,
      read_hash_bytes,
      seeked_read_exact_ok f1 f.fd.buf (offset + p.ptr + nodeLen p.id)
        TRIEHASH_ENCODED_SIZE hle]
  · intro hgt
    simp only [TrieFile.contents] at hgt
    by_cases h1 : offset + p.ptr + nodeLen p.id ≤ f.fd.buf.length
    · simp only [TrieFile.read_node_type, hoff, TrieFile.seek, hfd, read_nodetype_at_head,
        seeked_read_exact_ok f1 f.fd.buf (offset + p.ptr) (nodeLen p.id) h1,
        read_hash_bytes,
        seeked_read_exact_err f1 f.fd.buf (offset + p.ptr + nodeLen p.id)
          TRIEHASH_ENCODED_SIZE hgt]
    · simp only [TrieFile.read_node_type, hoff, TrieFile.seek, hfd, read_nodetype_at_head,
        seeked_read_exact_err f1 f.fd.buf (offset + p.ptr) (nodeLen p.id) (by omega)]
  · intro hle
    simp only [TrieFile.contents] at hle ⊢
    simp only [TrieFile.read_node_type_nohash, hoff, TrieFile.seek, hfd,
      read_nodetype_at_head,
      seeked_read_exact_ok f1 f.fd.buf (offset + p.ptr) (nodeLen p.id) hle]
  · intro hgt
    simp only [TrieFile.contents] at hgt
    simp only [TrieFile.read_node_type_nohash, hoff, TrieFile.seek, hfd,
      read_nodetype_at_head,
      seeked_read_exact_err f1 f.fd.buf (offset + p.ptr) (nodeLen p.id) hgt]

/-- Witness for the amended C3 at concrete inputs (node width 2): an
in-file read past the snapshot's recorded length succeeds and returns the
neighbor's bytes; a past-end-of-file read fails with `UnexpectedEof`; the
same for the node-reading variants. -/
theorem node_reads_bounded_by_eof_witness :
    (TrieFile.get_node_hash_bytes c3_db c3_f 0 { id := 0, ptr := 5 } =
       .ok ((c3_f.contents.drop 5).take TRIEHASH_ENCODED_SIZE,
            c3_f1.withFd { buf := c3_f.contents, pos := 5 + TRIEHASH_ENCODED_SIZE })) ∧
    (TrieFile.get_node_hash_bytes c3_db c3_f 0 { id := 0, ptr := 20 } =
       .error .unexpectedEof) ∧
    (TrieFile.read_node_type (fun _ => 2) c3_db c3_f 0 { id := 0, ptr := 5 } =
       .ok (((c3_f.contents.drop 5).take 2,
             (c3_f.contents.drop 7).take TRIEHASH_ENCODED_SIZE),
            c3_f1.withFd { buf := c3_f.contents, pos := 7 + TRIEHASH_ENCODED_SIZE })) ∧
    (TrieFile.read_node_type (fun _ => 2) c3_db c3_f 0 { id := 0, ptr := 20 } =
       .error .unexpectedEof) ∧
    (TrieFile.read_node_type_nohash (fun _ => 2) c3_db c3_f 0 { id := 0, ptr := 40 } =
       .ok ((c3_f.contents.drop 40).take 2,
            c3_f1.withFd { buf := c3_f.contents, pos := 42 })) ∧
    (TrieFile.read_node_type_nohash (fun _ => 2) c3_db c3_f 0 { id := 0, ptr := 44 } =
       .error .unexpectedEof) := by
  refine ⟨?_, ?_, ?_, ?_, ?_, ?_⟩
  · exact (node_reads_bounded_by_eof (fun _ => 2) c3_db c3_f 0 { id := 0, ptr := 5 }
      0 c3_f1 (by decide)).1 (by decide)
  · exact (node_reads_bounded_by_eof (fun _ => 2) c3_db c3_f 0 { id := 0, ptr := 20 }
      0 c3_f1 (by decide)).2.1 (by decide)
  · exact (node_reads_bounded_by_eof (fun _ => 2) c3_db c3_f 0 { id := 0, ptr := 5 }
      0 c3_f1 (by decide)).2.2.1 (by decide)
  · exact (node_reads_bounded_by_eof (fun _ => 2) c3_db c3_f 0 { id := 0, ptr := 20 }
      0 c3_f1 (by decide)).2.2.2.1 (by decide)
  · exact (node_reads_bounded_by_eof (fun _ => 2) c3_db c3_f 0 { id := 0, ptr := 40 }
      0 c3_f1 (by decide)).2.2.2.2.1 (by decide)
  · exact (node_reads_bounded_by_eof (fun _ => 2) c3_db c3_f 0 { id := 0, ptr := 44 }
      0 c3_f1 (by decide)).2.2.2.2.2 (by decide)

/-! ### Claim C2 -/

theorem blobs_length_append (db : DB) (r : MarfDataRow) :
    trie_sql.get_external_blobs_length (db ++ [r]) =
      trie_sql.get_external_blobs_length db +
        (if r.external_offset.isSome then r.external_length else 0) := by
  simp [trie_sql.get_external_blobs_length]

theorem append_ok_of_writable (db : DB) (f : TrieFile) (buf : List Byte)
    (hw : f.writable = true) :
    TrieFile.append_trie_blob db f buf =
      .ok (trie_sql.get_external_blobs_length db,
           f.withFd { buf := writeBytesAt f.contents
                               (trie_sql.get_external_blobs_length db) buf,
                      pos := trie_sql.get_external_blobs_length db + buf.length }) := by
  have hwa := TrieFile.write_all_of_writable
    (f.withFd { f.fd with pos := trie_sql.get_external_blobs_length db }) buf
    (by rw [TrieFile.writable_withFd]; exact hw)
  unfold TrieFile.append_trie_blob
  simp only [TrieFile.seek, hwa, TrieFile.flush, TrieFile.sync_data,
    TrieFile.withFd_withFd, TrieFile.fd_withFd, Cursor.writeAll, TrieFile.contents]

theorem flatten_slice (l : List (List Byte)) : ∀ (A : List Byte) (i : Nat) (b : List Byte),
    l[i]? = some b →
    ((A ++ l.flatten).drop (A.length + ((l.take i).map List.length).sum)).take b.length
      = b := by
  induction l with
  | nil => intro A i b h; simp at h
  | cons b0 rest ih =>
    intro A i b h
    cases i with
    | zero =>
      simp only [List.getElem?_cons_zero, Option.some.injEq] at h
      subst h
      simp only [List.take_zero, List.map_nil, List.sum_nil, Nat.add_zero]
      rw [show (b0 :: rest).flatten = b0 ++ rest.flatten from rfl,
          List.drop_left, List.take_left]
    | succ i =>
      simp only [List.getElem?_cons_succ] at h
      have h1 : A ++ (b0 :: rest).flatten = (A ++ b0) ++ rest.flatten := by
        rw [List.append_assoc]; rfl
      rw [h1]
      have h2 : A.length + (((b0 :: rest).take (i + 1)).map List.length).sum =
          (A ++ b0).length + ((rest.take i).map List.length).sum := by
        simp [List.length_append]
        omega
      rw [h2]
      exact ih (A ++ b0) i b h

theorem sum_take_getElem_le (l : List Nat) (i : Nat) (x : Nat) (h : l[i]? = some x) :
    (l.take i).sum + x ≤ l.sum := by
  have h1 : l.take (i + 1) = l.take i ++ [x] := by rw [List.take_succ, h]; rfl
  have h2 : (l.take (i + 1)).sum ≤ l.sum := by
    conv_rhs => rw [← List.take_append_drop (i + 1) l]
    rw [List.sum_append]
    exact Nat.le_add_right ..
  rw [h1, List.sum_append, List.sum_cons, List.sum_nil] at h2
  omega

/-- The body of `store_trie_blob`, iterated from a consistent state (index
length equal to physical length, as every state reachable by appends alone
is): each buffer lands at the end of the log, a fresh row records its
(offset, length), and the collected records carry the identifiers and
offsets in order. -/
theorem store_list_spec (pairs : List (Nat × List Byte)) : ∀ (db : DB) (f : TrieFile),
    f.writable = true →
    trie_sql.get_external_blobs_length db = f.contents.length →
    ∃ (db2 : DB) (f2 : TrieFile) (recs : List (Nat × Nat)),
      TrieFile.store_list db f pairs = .ok (db2, f2, recs) ∧
      f2.contents = f.contents ++ (pairs.map (fun q => q.2)).flatten ∧
      db2.length = db.length + pairs.length ∧
      (∀ j : Nat, j < db.length → db2[j]? = db[j]?) ∧
      (∀ (i bhh : Nat) (b : List Byte), pairs[i]? = some (bhh, b) →
        recs[i]? = some (db.length + i,
          f.contents.length + ((pairs.take i).map (fun q => q.2.length)).sum) ∧
        db2[db.length + i]? = some
          { block_hash := bhh, data := .cleared, unconfirmed := false,
            external_offset := some (f.contents.length +
              ((pairs.take i).map (fun q => q.2.length)).sum),
            external_length := b.length }) := by
  induction pairs with
  | nil =>
    intro db f hw hlen
    refine ⟨db, f, [], rfl, by simp, by simp, fun j hj => rfl, ?_⟩
    intro i bhh b h
    simp at h
  | cons p rest ih =>
    obtain ⟨bhh0, b0⟩ := p
    intro db f hw hlen
    have hwa : TrieFile.append_trie_blob db f b0 =
        .ok (f.contents.length,
             f.withFd { buf := f.contents ++ b0,
                        pos := f.contents.length + b0.length }) := by
      rw [append_ok_of_writable db f b0 hw, hlen, writeBytesAt_length_self]
    have hw1 : (f.withFd { buf := f.contents ++ b0,
                           pos := f.contents.length + b0.length }).writable = true := by
      rw [TrieFile.writable_withFd]; exact hw
    have hlen1 : trie_sql.get_external_blobs_length
        (db ++ [{ block_hash := bhh0, data := .cleared, unconfirmed := false,
                  external_offset := some f.contents.length,
                  external_length := b0.length }]) =
        (f.withFd { buf := f.contents ++ b0,
                    pos := f.contents.length + b0.length }).contents.length := by
      rw [blobs_length_append, TrieFile.contents_withFd, hlen]
      simp
    obtain ⟨db2, f2, recs, heq, hcont, hlen2, hold, hper⟩ :=
      ih (db ++ [{ block_hash := bhh0, data := .cleared, unconfirmed := false,
                   external_offset := some f.contents.length,
                   external_length := b0.length }])
         (f.withFd { buf := f.contents ++ b0,
                     pos := f.contents.length + b0.length }) hw1 hlen1
    refine ⟨db2, f2, (db.length, f.contents.length) :: recs, ?_, ?_, ?_, ?_, ?_⟩
    · simp only [TrieFile.store_list, hwa, trie_sql.write_external_trie_blob, heq]
    · rw [hcont, TrieFile.contents_withFd, List.append_assoc]
      rfl
    · simp only [hlen2, List.length_append, List.length_cons, List.length_nil]
      omega
    · intro j hj
      rw [hold j (by simp only [List.length_append, List.length_cons, List.length_nil]; omega)]
      exact List.getElem?_append_left hj
    · intro i bhh b h
      cases i with
      | zero =>
        simp only [List.getElem?_cons_zero, Option.some.injEq, Prod.mk.injEq] at h
        obtain ⟨h1, h2⟩ := h
        subst h1; subst h2
        constructor
        · simp
        · rw [Nat.add_zero,
            hold db.length (by simp only [List.length_append, List.length_cons, List.length_nil]; omega),
            List.getElem?_concat_length]
          simp
      | succ i =>
        simp only [List.getElem?_cons_succ] at h
        obtain ⟨hrec, hrow⟩ := hper i bhh b h
        constructor
        · rw [List.getElem?_cons_succ, hrec]
          simp only [Option.some.injEq, Prod.mk.injEq, List.length_append,
            List.length_cons, List.length_nil, TrieFile.contents_withFd,
            List.take_succ_cons, List.map_cons, List.sum_cons]
          omega
        · have hidx : db.length + (i + 1) =
              (db ++ [({ block_hash := bhh0, data := .cleared, unconfirmed := false,
                         external_offset := some f.contents.length,
                         external_length := b0.length } : MarfDataRow)]).length + i := by
            simp only [List.length_append, List.length_cons, List.length_nil]
            omega
          rw [hidx, hrow]
          simp only [Option.some.injEq, MarfDataRow.mk.injEq, TrieFile.contents_withFd,
            List.length_append, List.take_succ_cons, List.map_cons, List.sum_cons,
            Option.some.injEq]
          refine ⟨trivial, trivial, trivial, ?_, trivial⟩
          omega

def c2_db : DB :=
  [{ block_hash := 1, data := .cleared, unconfirmed := false,
     external_offset := some 0, external_length := 5 },
   { block_hash := 2, data := .cleared, unconfirmed := false,
     external_offset := some 5, external_length := 5 }]

def c2_f : TrieFile :=
  .RAM { fd := { buf := [1, 2, 3, 4, 5, 10, 20, 30, 40, 50], pos := 10 },
         readonly := false, trie_offsets := [] }

/-- Claim C2: starting from a fresh store, for any sequence of (hash,
buffer) pairs appended in order — each append followed by recording its
offset and length in the Metadata Index — the offset returned for the
`i`-th buffer equals the sum of the lengths of the earlier buffers, and
reading that buffer's length at its identifier reproduces it exactly; in
particular appending `[1,2,3,4,5]` then `[10,20,30,40,50]` yields offsets 0
and 5 and the two reads reproduce the buffers. -/
theorem append_read_roundtrip :
    (∀ (pairs : List (Nat × List Byte)) (db2 : DB) (f2 : TrieFile)
       (recs : List (Nat × Nat)),
       TrieFile.store_list [] (TrieFile.new_ram false) pairs = .ok (db2, f2, recs) →
       ∀ (i bhh : Nat) (b : List Byte), pairs[i]? = some (bhh, b) →
         recs[i]? = some (i, ((pairs.take i).map (fun q => q.2.length)).sum) ∧
         ∃ f3, TrieFile.read_trie_blob db2 f2 i = .ok (b, f3)) ∧
    (TrieFile.store_list [] (TrieFile.new_ram false)
       [(1, [1, 2, 3, 4, 5]), (2, [10, 20, 30, 40, 50])] =
       .ok (c2_db, c2_f, [(0, 0), (1, 5)])) ∧
    (TrieFile.read_trie_blob c2_db c2_f 0 =
       .ok ([1, 2, 3, 4, 5],
            .RAM { fd := { buf := [1, 2, 3, 4, 5, 10, 20, 30, 40, 50], pos := 5 },
                   readonly := false, trie_offsets := [] })) ∧
    (TrieFile.read_trie_blob c2_db c2_f 1 =
       .ok ([10, 20, 30, 40, 50],
            .RAM { fd := { buf := [1, 2, 3, 4, 5, 10, 20, 30, 40, 50], pos := 10 },
                   readonly := false, trie_offsets := [] })) := by
  refine ⟨?_, by decide, by decide, by decide⟩
  intro pairs db2 f2 recs heq i bhh b hp
  obtain ⟨db2x, f2x, recsx, heqx, hcont, hlen2, hold, hper⟩ :=
    store_list_spec pairs [] (TrieFile.new_ram false) rfl rfl
  rw [heq] at heqx
  simp only [Except.ok.injEq, Prod.mk.injEq] at heqx
  obtain ⟨e1, e2, e3⟩ := heqx
  subst e1; subst e2; subst e3
  obtain ⟨hrec, hrow⟩ := hper i bhh b hp
  simp only [TrieFile.new_ram, TrieFile.contents, TrieFile.fd, List.length_nil,
    List.length_cons, Nat.zero_add] at hrec hrow hcont
  constructor
  · simpa using hrec
  · -- read back buffer i
    have hbuf : f2.fd.buf = (pairs.map (fun q => q.2)).flatten := by
      have h1 := hcont
      simp only [List.nil_append] at h1
      exact h1
    have hx : (pairs.map (fun q => q.2.length))[i]? = some b.length := by
      rw [List.getElem?_map, hp]
      rfl
    have hbound : ((pairs.take i).map (fun q => q.2.length)).sum + b.length ≤
        f2.fd.buf.length := by
      have h1 := sum_take_getElem_le (pairs.map (fun q => q.2.length)) i b.length hx
      rw [← List.map_take] at h1
      have h2 : f2.fd.buf.length = (pairs.map (fun q => q.2.length)).sum := by
        rw [hbuf, List.length_flatten, List.map_map]
        rfl
      rw [h2]
      exact h1
    have hsl := flatten_slice (pairs.map (fun q => q.2)) [] i b
      (by rw [List.getElem?_map, hp]; rfl)
    simp only [List.nil_append, List.length_nil, Nat.zero_add] at hsl
    have h4 : (((pairs.map (fun q => q.2)).take i).map List.length).sum =
        ((pairs.take i).map (fun q => q.2.length)).sum := by
      rw [← List.map_take, List.map_map]
      rfl
    rw [h4] at hsl
    refine ⟨f2.withFd { buf := f2.fd.buf,
                        pos := ((pairs.take i).map (fun q => q.2.length)).sum + b.length }, ?_⟩
    unfold TrieFile.read_trie_blob
    simp only [trie_sql.get_external_trie_offset_length, hrow, TrieFile.seek,
      seeked_read_exact_ok f2 f2.fd.buf
        (((pairs.take i).map (fun q => q.2.length)).sum) b.length hbound]
    rw [← hbuf] at hsl
    rw [hsl]

/-- Witness for C2: the claim's own concrete scenario, routed through the
general round-trip statement at index 1. -/
theorem append_read_roundtrip_witness :
    ([(0, 0), (1, 5)] : List (Nat × Nat))[1]? = some (1, 5) ∧
    ∃ f3, TrieFile.read_trie_blob c2_db c2_f 1 = .ok ([10, 20, 30, 40, 50], f3) :=
  append_read_roundtrip.1 [(1, [1, 2, 3, 4, 5]), (2, [10, 20, 30, 40, 50])]
    c2_db c2_f [(0, 0), (1, 5)] (by decide) 1 2 [10, 20, 30, 40, 50] (by decide)

end Marf
